import Mathlib

/-!
Verification development for the analytics-pipeline demo sources.

The definitions below are a shallow embedding of the two source files the
claims refer to:

* `smart_classroom_demo/cpp/src/cnn.cpp` — `CnnDLSDKBase::Load`,
  `CnnDLSDKBase::InferBatch`, `VectorCNN` construction and
  `VectorCNN::Compute` (the batched-inference adapter and the embedding
  decoder).  Frames and blob elements are abstracted as type variables, the
  inference engine's output for a chunk is an uninterpreted function
  `blobOf`, and the engine interactions of one chunk (which frames are
  copied into the input tensor, the `SetBatch` call, the callback arguments)
  are recorded in a `ChunkRun` value, one per blocking `Infer()` call.

* `mask_rcnn_demo/cpp/main.cpp` — command-line checking, the entry point's
  try/catch exit-code policy, and the detection/mask decoding loop over the
  `(BOXES, 7)` detection-output tensor.  C++ `float` values are modelled as
  `Rat`; `static_cast<int>` on a float is truncation toward zero
  (`Int.tdiv` of numerator by denominator); `size_t` arithmetic is `Nat`
  arithmetic modulo `2 ^ 64`.  The `std::map<size_t, size_t> class_color`
  is modelled as an insertion-ordered association list, since the code only
  ever uses `emplace` (insert-if-absent, with the current size as the new
  value) and reads the resulting value.  Each composited box is recorded as
  an `Overlay` action.
-/

/-- One chunk of `CnnDLSDKBase::InferBatch` (cnn.cpp lines 58-73): the
frames copied into the input tensor for this chunk (slot `b` gets the
`b`-th list element), the argument of the `SetBatch` call if one is made,
and the arguments passed to the `fetch_results` callback (the names of all
output blobs, and `current_batch_size`).  One `ChunkRun` corresponds to
exactly one blocking `Infer()` call and one callback invocation. -/
structure ChunkRun (α : Type) where
  copied : List α
  setBatchArg : Option Nat
  outputNames : List String
  cbChunkSize : Nat
  deriving DecidableEq

/-- The loop of `CnnDLSDKBase::InferBatch`: `batch_i` advances by
`batchSize` while `batch_i < num_imgs`; `current_batch_size` is
`min(batch_size, num_imgs - batch_i)`; frames `batch_i .. batch_i +
current - 1` are copied to slots `0 .. current - 1`; `SetBatch(current)`
is called when `config_.max_batch_size != 1`; then one `Infer()` and one
callback.  The remaining iterations operate on the frames after the first
`batchSize`.  `fuel` bounds the recursion; `fuel = frames.length` is
enough whenever `0 < batchSize` (in the source, `batch_size` is the input
tensor's batch dimension, which is positive). -/
def inferBatchGo (maxBatchSize batchSize : Nat) (outputNames : List String) :
    Nat → List α → List (ChunkRun α)
  | 0, _ => []
  | _, [] => []
  | fuel + 1, f :: fs =>
    let current := min batchSize (f :: fs).length
    { copied := (f :: fs).take current,
      setBatchArg := if maxBatchSize ≠ 1 then some current else none,
      outputNames := outputNames,
      cbChunkSize := current } ::
      inferBatchGo maxBatchSize batchSize outputNames fuel ((f :: fs).drop batchSize)

/-- `CnnDLSDKBase::InferBatch` (cnn.cpp lines 51-74), as the list of chunk
runs it performs, in order. -/
def inferBatch (maxBatchSize batchSize : Nat) (outputNames : List String)
    (frames : List α) : List (ChunkRun α) :=
  inferBatchGo maxBatchSize batchSize outputNames frames.length frames

/-- Errors thrown by the cnn.cpp wrapper (`std::runtime_error`). -/
inductive CnnError
  | runtimeError (msg : String)
  deriving DecidableEq

/-- The state `CnnDLSDKBase::Load` leaves behind on success: the batch size
the network was compiled with, whether the dynamic-batch fallback branch
disabled dynamic batching (`KEY_DYN_BATCH_ENABLED = NO`), the recorded
output blob names, and whether `CreateInferRequest` ran. -/
structure LoadedHandle where
  batchSize : Nat
  dynBatchDisabled : Bool
  outputBlobNames : List String
  inferRequestCreated : Bool
  deriving DecidableEq

/-- `CnnDLSDKBase::Load` (cnn.cpp lines 18-49).  `numInputs` is the size of
the network's inputs map; if it is not 1, a `std::runtime_error` is thrown
before any inference request is created.  `dynBatchLoadSucceeds` models
whether the first `LoadNetwork` call succeeds; when it throws (the model
does not work with dynamic batch), the network batch size is reset to 1 and
the network is reloaded with dynamic batching disabled, after which
`CreateInferRequest` runs normally. -/
def LoadModel (numInputs : Nat) (outputNames : List String) (maxBatchSize : Nat)
    (dynBatchLoadSucceeds : Bool) : Except CnnError LoadedHandle :=
  if numInputs ≠ 1 then
    Except.error (CnnError.runtimeError "Network should have only one input")
  else if dynBatchLoadSucceeds then
    Except.ok { batchSize := maxBatchSize, dynBatchDisabled := false,
                outputBlobNames := outputNames, inferRequestCreated := true }
  else
    Except.ok { batchSize := 1, dynBatchDisabled := true,
                outputBlobNames := outputNames, inferRequestCreated := true }

/-- The `VectorCNN` constructor (cnn.cpp lines 81-87): run `Load`, then
fail with `std::runtime_error` unless there is exactly one output blob. -/
def vectorCNNLoad (numInputs : Nat) (outputNames : List String) (maxBatchSize : Nat)
    (dynBatchLoadSucceeds : Bool) : Except CnnError LoadedHandle :=
  (LoadModel numInputs outputNames maxBatchSize dynBatchLoadSucceeds).bind fun hd =>
    if hd.outputBlobNames.length ≠ 1 then
      Except.error (CnnError.runtimeError "Demo supports topologies only with 1 output")
    else Except.ok hd

/-- The `results_fetcher` lambda of `VectorCNN::Compute` (cnn.cpp lines
102-125) for one output blob of one chunk: for each `b < batch_size`
(the chunk size the callback received), wrap the `featureDim` floats at
offset `b * featureDim` of the blob, reshape them to `(h, w)` when an
output shape was requested — which throws unless `h * w` equals the
feature dimension (`out_blob.size[1]`) — and append a copy to the result
vector. -/
def resultsFetcher (featureDim : Nat) (outpShape : Option (Nat × Nat))
    (blobData : List β) (chunkSize : Nat) (vectors : List (List β)) :
    Except String (List (List β)) :=
  (List.range chunkSize).foldlM
    (fun vs b =>
      let wrapper := (blobData.drop (b * featureDim)).take featureDim
      match outpShape with
      | none => Except.ok (vs ++ [wrapper])
      | some (hh, ww) =>
        if hh * ww = featureDim then Except.ok (vs ++ [wrapper])
        else Except.error "VectorCNN reshape size mismatch")
    vectors

/-- `VectorCNN::Compute` on a list of frames (cnn.cpp lines 96-127):
`InferBatch` over the frames, running the results fetcher once per chunk.
`blobOf` gives the engine's output-blob contents after inferring a chunk;
its length is the blob's total size `batchSize * featureDim`. -/
def vectorCNNCompute (featureDim maxBatchSize batchSize : Nat)
    (outpShape : Option (Nat × Nat)) (blobOf : List α → List β)
    (frames : List α) : Except String (List (List β)) :=
  (inferBatch maxBatchSize batchSize ["fc"] frames).foldlM
    (fun vs r => resultsFetcher featureDim outpShape (blobOf r.copied) r.cbChunkSize vs) []

/-- The command-line flags checked by `ParseAndCheckCommandLine`
(main.cpp lines 28-46). -/
structure CmdFlags where
  h : Bool
  i : String
  m : String
  deriving DecidableEq

/-- Result of `ParseAndCheckCommandLine`: `help` is `return false` (after
`showUsage`), `proceed` is `return true`. -/
inductive ParseOutcome
  | help
  | proceed
  deriving DecidableEq

/-- `ParseAndCheckCommandLine` (main.cpp lines 28-46): `-h` prints usage
and returns false; a missing `-i` or `-m` throws `std::logic_error`. -/
def parseAndCheckCommandLine (flags : CmdFlags) : Except String ParseOutcome :=
  if flags.h then Except.ok ParseOutcome.help
  else if flags.i = "" then Except.error "Parameter -i is not set"
  else if flags.m = "" then Except.error "Parameter -m is not set"
  else Except.ok ParseOutcome.proceed

/-- What the mask demo's `main` produces: the process exit code and whether
usage was printed (`showUsage` runs only on the `-h` branch). -/
structure MainOutcome where
  exitCode : Nat
  usagePrinted : Bool
  deriving DecidableEq

/-- The entry point `main` (main.cpp lines 48-284): parse flags — `help`
returns 0 after printing usage, a thrown `std::logic_error` is caught by
the `catch (const std::exception&)` at the bottom, logged, and turns into
exit code 1 — then run the rest of the body (`rest`, everything from input
collection to image writing, abstracted as a possibly-throwing
computation), whose exceptions are caught the same way; falling off the end
returns 0. -/
def mainMask (flags : CmdFlags) (rest : Except String Unit) : MainOutcome :=
  match parseAndCheckCommandLine flags with
  | Except.ok ParseOutcome.help => { exitCode := 0, usagePrinted := true }
  | Except.ok ParseOutcome.proceed =>
    match rest with
    | Except.ok _ => { exitCode := 0, usagePrinted := false }
    | Except.error _ => { exitCode := 1, usagePrinted := false }
  | Except.error _ => { exitCode := 1, usagePrinted := false }

/-- `static_cast<int>` of a float value (modelled as `Rat`): truncation
toward zero, i.e. T-division of the numerator by the denominator. -/
def truncToInt (q : Rat) : Int := Int.tdiv q.num (q.den : Int)

/-- One row of the `(BOXES, 7)` detection-output tensor:
`(batchIndex, classId, probability, x1, y1, x2, y2)` as raw float values. -/
structure BoxRow where
  batchF : Rat
  classF : Rat
  prob : Rat
  x1 : Rat
  y1 : Rat
  x2 : Rat
  y2 : Rat
  deriving DecidableEq

/-- `std::min(std::max(0.0f, v * dim), (float)dim)` — the coordinate
clamping of main.cpp lines 234-237. -/
def clampCoord (v : Rat) (dim : Nat) : Rat := min (max 0 (v * dim)) dim

/-- `static_cast<size_t>(box_info[1] + 1e-6f)` (main.cpp line 240).
`Int.toNat` sends negative values to 0; in the source a negative float
here would be undefined behaviour, and no claim depends on that case. -/
def classIdOf (classF : Rat) : Nat := (truncToInt (classF + 1 / 1000000)).toNat

/-- The modulus of `size_t` arithmetic on the demo's 64-bit target. -/
def SIZE_T_MOD : Nat := 2 ^ 64

/-- `size_t` subtraction `a - b` (wraps modulo `2 ^ 64`). -/
def subSizeT (a b : Nat) : Nat := (a + (SIZE_T_MOD - b % SIZE_T_MOD)) % SIZE_T_MOD

/-- The float-pointer offset of the mask slab read for `box` and
`class_id` (main.cpp lines 216 and 244): `box_stride * box + H * W *
(class_id - 1)` in `size_t` arithmetic, with `box_stride = W * H * C`. -/
def maskSlabOffset (C H W box classId : Nat) : Nat :=
  (W * H * C * box + H * W * subSizeT classId 1) % SIZE_T_MOD

/-- Lookup in the association-list model of `std::map<size_t, size_t>`. -/
def lookupRank (k : Nat) : List (Nat × Nat) → Option Nat
  | [] => none
  | (k2, v) :: rest => if k2 = k then some v else lookupRank k rest

/-- `class_color.emplace(class_id, class_color.size()).first->second`
(main.cpp line 242): insert `class_id` with the map's current size as
value if it is absent; return the value now associated with `class_id`
together with the updated map. -/
def emplaceRank (class_color : List (Nat × Nat)) (k : Nat) : Nat × List (Nat × Nat) :=
  match lookupRank k class_color with
  | some v => (v, class_color)
  | none => (class_color.length, class_color ++ [(k, class_color.length)])

/-- Append a key to a first-seen list if it is not present yet. -/
def insSeen (seen : List Nat) (k : Nat) : List Nat :=
  if k ∈ seen then seen else seen ++ [k]

/-- One accepted box's compositing action (main.cpp lines 241-262): the row
index, the batch (image) index, the decoded class id, the palette rank
stored in `class_color`, the palette index `rank % arraySize(COLORS)`
selecting the overlay color, and the mask-slab offset that is read. -/
structure Overlay where
  box : Nat
  batch : Nat
  classId : Nat
  rank : Nat
  colorIndex : Nat
  maskOffset : Nat
  deriving DecidableEq

/-- `box_width` of main.cpp line 238: `static_cast<int>(x2 - x1)` where
`x1`, `x2` are the clamped pixel coordinates against the columns of the
image selected by the row's batch index. -/
def rowBoxWidth (images : Nat → Nat × Nat) (r : BoxRow) : Int :=
  truncToInt (clampCoord r.x2 (images (truncToInt r.batchF).toNat).1 -
    clampCoord r.x1 (images (truncToInt r.batchF).toNat).1)

/-- `box_height` of main.cpp line 239, against the selected image's rows. -/
def rowBoxHeight (images : Nat → Nat × Nat) (r : BoxRow) : Int :=
  truncToInt (clampCoord r.y2 (images (truncToInt r.batchF).toNat).2 -
    clampCoord r.y1 (images (truncToInt r.batchF).toNat).2)

/-- The acceptance test of main.cpp line 241:
`prob > PROBABILITY_THRESHOLD && box_width > 0 && box_height > 0`. -/
def rowAccept (images : Nat → Nat × Nat) (r : BoxRow) : Prop :=
  (1 : Rat) / 5 < r.prob ∧ 0 < rowBoxWidth images r ∧ 0 < rowBoxHeight images r

instance (images : Nat → Nat × Nat) (r : BoxRow) : Decidable (rowAccept images r) := by
  unfold rowAccept
  infer_instance

/-- The box-decoding loop of main.cpp lines 226-263, from row index `box`
with the current `class_color` map.  A row whose cast batch index is
negative breaks out of the loop; a batch index `≥ netBatchSize` throws
`std::logic_error`; a row passing the probability/size test is composited
(recorded as an `Overlay`); all other rows are skipped.  `images b` gives
`(cols, rows)` of the `b`-th collected image. -/
def decodeBoxes (netBatchSize paletteSize C H W : Nat) (images : Nat → Nat × Nat) :
    List BoxRow → Nat → List (Nat × Nat) → Except String (List Overlay)
  | [], _, _ => Except.ok []
  | r :: rest, box, class_color =>
    if truncToInt r.batchF < 0 then Except.ok []
    else if (netBatchSize : Int) ≤ truncToInt r.batchF then
      Except.error "Invalid batch ID within detection output box"
    else if rowAccept images r then
      (decodeBoxes netBatchSize paletteSize C H W images rest (box + 1)
          (emplaceRank class_color (classIdOf r.classF)).2).map
        (fun ovs =>
          { box := box, batch := (truncToInt r.batchF).toNat,
            classId := classIdOf r.classF,
            rank := (emplaceRank class_color (classIdOf r.classF)).1,
            colorIndex := (emplaceRank class_color (classIdOf r.classF)).1 % paletteSize,
            maskOffset := maskSlabOffset C H W box (classIdOf r.classF) } :: ovs)
    else
      decodeBoxes netBatchSize paletteSize C H W images rest (box + 1) class_color

/-- The whole detection-decoding pass (main.cpp lines 218-263): iterate
over the detection rows from row 0 with an empty `class_color` map. -/
def decodeDetections (netBatchSize paletteSize C H W : Nat)
    (images : Nat → Nat × Nat) (rows : List BoxRow) : Except String (List Overlay) :=
  decodeBoxes netBatchSize paletteSize C H W images rows 0 []

/-- Invariant of the `class_color` association list: the stored palette
ranks are exactly `0, 1, 2, ...` in insertion order (each `emplace` stores
the map's previous size), and each class id occurs at most once. -/
def ccWellFormed (cc : List (Nat × Nat)) : Prop :=
  cc.map Prod.snd = List.range cc.length ∧ (cc.map Prod.fst).Nodup

/-- Unfolding lemma: `inferBatchGo` on a nonempty frame list with fuel. -/
theorem inferBatchGo_cons {α : Type} (m bs : Nat) (names : List String) (fuel : Nat)
    (f : α) (fs : List α) :
    inferBatchGo m bs names (fuel + 1) (f :: fs) =
      { copied := (f :: fs).take (min bs (f :: fs).length),
        setBatchArg := if m ≠ 1 then some (min bs (f :: fs).length) else none,
        outputNames := names,
        cbChunkSize := min bs (f :: fs).length } ::
        inferBatchGo m bs names fuel ((f :: fs).drop bs) := rfl

/-- The chunks of `InferBatch` concatenate back to the input frames. -/
theorem inferBatchGo_join {α : Type} (m bs : Nat) (hbs : 0 < bs) (names : List String) :
    ∀ (fuel : Nat) (frames : List α), frames.length ≤ fuel →
      ((inferBatchGo m bs names fuel frames).map ChunkRun.copied).flatten = frames := by
  intro fuel
  induction fuel with
  | zero =>
    intro frames hlen
    have : frames = [] := List.eq_nil_of_length_eq_zero (Nat.le_zero.mp hlen)
    subst this
    rfl
  | succ fuel ih =>
    intro frames hlen
    cases frames with
    | nil => rfl
    | cons f fs =>
      rw [inferBatchGo_cons]
      have hdrop : ((f :: fs).drop bs).length ≤ fuel := by
        simp only [List.length_drop, List.length_cons] at *
        omega
      simp only [List.map_cons, List.flatten_cons, ih _ hdrop]
      have htake : (f :: fs).take (min bs (f :: fs).length) = (f :: fs).take bs := by
        rw [List.take_eq_take]
        omega
      rw [htake, List.take_append_drop]

/-- Per-chunk facts about the runs `InferBatch` performs. -/
theorem inferBatchGo_spec {α : Type} (m bs : Nat) (hbs : 0 < bs) (names : List String) :
    ∀ (fuel : Nat) (frames : List α), frames.length ≤ fuel →
      ∀ r ∈ inferBatchGo m bs names fuel frames,
        0 < r.copied.length ∧ r.copied.length ≤ bs ∧
        r.cbChunkSize = r.copied.length ∧ r.outputNames = names ∧
        r.setBatchArg = (if m ≠ 1 then some r.cbChunkSize else none) := by
  intro fuel
  induction fuel with
  | zero =>
    intro frames hlen r hr
    have : frames = [] := List.eq_nil_of_length_eq_zero (Nat.le_zero.mp hlen)
    subst this
    simp [inferBatchGo] at hr
  | succ fuel ih =>
    intro frames hlen r hr
    cases frames with
    | nil => simp [inferBatchGo] at hr
    | cons f fs =>
      rw [inferBatchGo_cons] at hr
      rcases List.mem_cons.mp hr with hhead | htail
      · subst hhead
        refine ⟨?_, ?_, ?_, rfl, rfl⟩
        · simp only [List.length_take, List.length_cons]
          omega
        · simp only [List.length_take, List.length_cons]
          omega
        · simp only [List.length_take, List.length_cons]
          omega
      · have hdrop : ((f :: fs).drop bs).length ≤ fuel := by
          simp only [List.length_drop, List.length_cons] at *
          omega
        exact ih _ hdrop r htail

/-- `InferBatch` on a nonempty frame list performs at least one chunk. -/
theorem inferBatch_ne_nil {α : Type} (m bs : Nat) (names : List String)
    (frames : List α) (hne : frames ≠ []) :
    inferBatch m bs names frames ≠ [] := by
  cases frames with
  | nil => exact absurd rfl hne
  | cons f fs => simp [inferBatch, inferBatchGo_cons]

/-- C1: for every non-empty frame list, `InferBatch` splits the frames into
consecutive chunks of size at most the input tensor's batch size — every
frame is copied into the input tensor exactly once, in order, and frames
beyond the first chunk land in follow-up chunks — performing one blocking
inference per chunk (one `ChunkRun` each) and one callback invocation per
chunk that receives all named output blobs and the chunk's size. -/
theorem inferBatch_chunking {α : Type} (m bs : Nat) (hbs : 0 < bs) (names : List String)
    (frames : List α) (hne : frames ≠ []) :
    inferBatch m bs names frames ≠ [] ∧
    ((inferBatch m bs names frames).map ChunkRun.copied).flatten = frames ∧
    ∀ r ∈ inferBatch m bs names frames,
      0 < r.copied.length ∧ r.copied.length ≤ bs ∧
      r.cbChunkSize = r.copied.length ∧ r.outputNames = names := by
  refine ⟨inferBatch_ne_nil m bs names frames hne,
    inferBatchGo_join m bs hbs names frames.length frames (Nat.le_refl _), ?_⟩
  intro r hr
  have h := inferBatchGo_spec m bs hbs names frames.length frames (Nat.le_refl _) r hr
  exact ⟨h.1, h.2.1, h.2.2.1, h.2.2.2.1⟩

/-- Witness for C1 at a concrete input: three frames, batch size 2. -/
theorem inferBatch_chunking_witness :
    inferBatch 1 2 ["prob"] ([5, 6, 7] : List Nat) ≠ [] ∧
    ((inferBatch 1 2 ["prob"] ([5, 6, 7] : List Nat)).map ChunkRun.copied).flatten = [5, 6, 7] ∧
    ∀ r ∈ inferBatch 1 2 ["prob"] ([5, 6, 7] : List Nat),
      0 < r.copied.length ∧ r.copied.length ≤ 2 ∧
      r.cbChunkSize = r.copied.length ∧ r.outputNames = ["prob"] :=
  inferBatch_chunking 1 2 (by decide) ["prob"] [5, 6, 7] (by decide)

/-- Counterexample to C2 as stated: with `max_batch_size = 2` (dynamic
batching in play) and a full chunk of size exactly the batch size,
`SetBatch` is still invoked — the code guards the call only by
`config_.max_batch_size != 1`, not by the chunk being smaller. -/
theorem inferBatch_setBatch_counterexample :
    ¬ (∀ r ∈ inferBatch 2 2 ["out"] ([0, 1] : List Nat),
        (r.setBatchArg ≠ none ↔ (r.copied.length < 2 ∧ 2 ≠ 1))) := by decide

/-- C2 (amended): `SetBatch(current_batch_size)` is invoked for every chunk
if and only if `config_.max_batch_size ≠ 1`; the invoked call carries a
value strictly smaller than the input tensor's batch size (an actual
shrink of the active batch size) if and only if, in addition, the current
chunk is smaller than that batch size. -/
theorem inferBatch_setBatch_amended {α : Type} (m bs : Nat) (hbs : 0 < bs)
    (names : List String) (frames : List α) (r : ChunkRun α)
    (hr : r ∈ inferBatch m bs names frames) :
    r.setBatchArg = (if m ≠ 1 then some r.copied.length else none) ∧
    ((∃ k, r.setBatchArg = some k ∧ k < bs) ↔ (m ≠ 1 ∧ r.copied.length < bs)) := by
  have h := inferBatchGo_spec m bs hbs names frames.length frames (Nat.le_refl _) r hr
  obtain ⟨-, -, hcb, -, hset⟩ := h
  rw [hcb] at hset
  refine ⟨hset, ?_, ?_⟩
  · rintro ⟨k, hk, hklt⟩
    by_cases hm : m = 1
    · subst hm
      rw [if_neg (fun hcon => hcon rfl)] at hset
      rw [hset] at hk
      cases hk
    · refine ⟨hm, ?_⟩
      rw [if_pos hm] at hset
      rw [hset] at hk
      injection hk with hk2
      omega
  · rintro ⟨hm, hlt⟩
    rw [if_pos hm] at hset
    exact ⟨r.copied.length, hset, hlt⟩

/-- Witness for C2 (amended) at a concrete input: the trailing chunk `[2]`
of a 3-frame run with batch size 2 gets `SetBatch 1`, an actual shrink. -/
theorem inferBatch_setBatch_amended_witness :
    ({ copied := [2], setBatchArg := some 1, outputNames := ["o"],
       cbChunkSize := 1 } : ChunkRun Nat).setBatchArg =
      (if (3 : Nat) ≠ 1 then
        some ({ copied := [2], setBatchArg := some 1, outputNames := ["o"],
                cbChunkSize := 1 } : ChunkRun Nat).copied.length else none) ∧
    ((∃ k, ({ copied := [2], setBatchArg := some 1, outputNames := ["o"],
              cbChunkSize := 1 } : ChunkRun Nat).setBatchArg = some k ∧ k < 2) ↔
      ((3 : Nat) ≠ 1 ∧
        ({ copied := [2], setBatchArg := some 1, outputNames := ["o"],
           cbChunkSize := 1 } : ChunkRun Nat).copied.length < 2)) :=
  inferBatch_setBatch_amended 3 2 (by decide) ["o"] [0, 1, 2] _ (by decide)

/-- C3: when loading the network to the device fails because dynamic
batching is unsupported (the first `LoadNetwork` throws), `Load` reloads
with a fixed batch size of 1 and dynamic-batch mode disabled, raising no
error to the caller: it completes normally with a handle whose inference
request was created. -/
theorem loadModel_dynBatch_fallback (outputNames : List String) (maxBatchSize : Nat) :
    LoadModel 1 outputNames maxBatchSize false =
      Except.ok { batchSize := 1, dynBatchDisabled := true,
                  outputBlobNames := outputNames, inferRequestCreated := true } := rfl

/-- C8: loading a network with more than one input tensor in the
`VectorCNN` variant fails with a `std::runtime_error`; the result is never
a usable handle (so no inference request was created — the throw happens
before `CreateInferRequest`). -/
theorem vectorCNNLoad_multi_input_error (numInputs : Nat) (hn : 2 ≤ numInputs)
    (outputNames : List String) (maxBatchSize : Nat) (dynOk : Bool) :
    vectorCNNLoad numInputs outputNames maxBatchSize dynOk =
      Except.error (CnnError.runtimeError "Network should have only one input") ∧
    (vectorCNNLoad numInputs outputNames maxBatchSize dynOk).isOk = false := by
  have h1 : numInputs ≠ 1 := by omega
  have hload : LoadModel numInputs outputNames maxBatchSize dynOk =
      Except.error (CnnError.runtimeError "Network should have only one input") := by
    simp [LoadModel, h1]
  have heq : vectorCNNLoad numInputs outputNames maxBatchSize dynOk =
      Except.error (CnnError.runtimeError "Network should have only one input") := by
    simp [vectorCNNLoad, hload, Except.bind]
  exact ⟨heq, by rw [heq]; rfl⟩

/-- Witness for C8 at a concrete input: a two-input network. -/
theorem vectorCNNLoad_multi_input_error_witness :
    vectorCNNLoad 2 ["out"] 4 true =
      Except.error (CnnError.runtimeError "Network should have only one input") ∧
    (vectorCNNLoad 2 ["out"] 4 true).isOk = false :=
  vectorCNNLoad_multi_input_error 2 (by decide) ["out"] 4 true

/-- If the per-item loop of the results fetcher succeeds starting from
vectors of the declared feature length, every resulting vector has the
declared feature length. -/
theorem resultsFetcher_ok_lengths {β : Type} (fd : Nat) (shape : Option (Nat × Nat))
    (blob : List β) :
    ∀ (c : Nat), c * fd ≤ blob.length →
      ∀ (vs out : List (List β)), (∀ v ∈ vs, v.length = fd) →
        resultsFetcher fd shape blob c vs = Except.ok out →
        ∀ v ∈ out, v.length = fd := by
  intro c
  induction c with
  | zero =>
    intro hc vs out hvs heq
    simp only [resultsFetcher, List.range_zero, List.foldlM_nil] at heq
    cases heq
    exact hvs
  | succ c ih =>
    intro hc vs out hvs heq
    have hc2 : c * fd ≤ blob.length := by
      have : c * fd ≤ (c + 1) * fd := Nat.mul_le_mul_right fd (Nat.le_succ c)
      omega
    simp only [resultsFetcher, List.range_succ, List.foldlM_append, List.foldlM_cons,
      List.foldlM_nil] at heq
    cases hmid : (List.range c).foldlM
        (fun vs b =>
          let wrapper := (blob.drop (b * fd)).take fd
          match shape with
          | none => Except.ok (vs ++ [wrapper])
          | some (hh, ww) =>
            if hh * ww = fd then Except.ok (vs ++ [wrapper])
            else Except.error "VectorCNN reshape size mismatch")
        vs with
    | error e => rw [hmid] at heq; cases heq
    | ok mid =>
      rw [hmid] at heq
      have hmidlen : ∀ v ∈ mid, v.length = fd := by
        have := ih hc2 vs mid hvs
        simp only [resultsFetcher] at this
        exact this hmid
      have hwrap : ((blob.drop (c * fd)).take fd).length = fd := by
        simp only [List.length_take, List.length_drop]
        have : (c + 1) * fd = c * fd + fd := by ring
        omega
      have happ : ∀ v ∈ mid ++ [(blob.drop (c * fd)).take fd], v.length = fd := by
        intro v hv
        rcases List.mem_append.mp hv with hv1 | hv2
        · exact hmidlen v hv1
        · rw [List.mem_singleton.mp hv2]
          exact hwrap
      cases shape with
      | none =>
        simp only [bind, Except.bind] at heq
        cases heq
        exact happ
      | some p =>
        obtain ⟨hh, ww⟩ := p
        by_cases hs : hh * ww = fd
        · simp only [bind, Except.bind, hs, if_pos] at heq
          cases heq
          exact happ
        · simp only [bind, Except.bind, hs, if_neg, if_false] at heq
          cases heq

/-- A requested reshape whose target area differs from the feature
dimension makes the fetcher fail on any nonempty chunk. -/
theorem resultsFetcher_reshape_error {β : Type} (fd hh ww : Nat) (blob : List β)
    (hne : hh * ww ≠ fd) :
    ∀ (c : Nat), 0 < c → ∀ vs : List (List β),
      resultsFetcher fd (some (hh, ww)) blob c vs =
        Except.error "VectorCNN reshape size mismatch" := by
  intro c
  induction c with
  | zero => intro hc; omega
  | succ c ih =>
    intro _ vs
    simp only [resultsFetcher, List.range_succ, List.foldlM_append, List.foldlM_cons,
      List.foldlM_nil]
    cases hc0 : c with
    | zero =>
      subst hc0
      simp only [List.range_zero, List.foldlM_nil, pure, Except.pure, bind, Except.bind,
        hne, if_neg, if_false]
    | succ c2 =>
      have herr := ih (by omega) vs
      simp only [resultsFetcher] at herr
      rw [← hc0, herr]
      rfl

/-- Folding the results fetcher over any chunk runs whose chunk sizes stay
within the blob's batch dimension preserves the feature-length invariant of
the accumulated vectors. -/
theorem computeFold_ok_lengths {α β : Type} (fd bs : Nat) (shape : Option (Nat × Nat))
    (blobOf : List α → List β) (hblob : ∀ chunk, (blobOf chunk).length = bs * fd) :
    ∀ (runs : List (ChunkRun α)), (∀ r ∈ runs, r.cbChunkSize ≤ bs) →
      ∀ (vs out : List (List β)), (∀ v ∈ vs, v.length = fd) →
        runs.foldlM
            (fun vs r => resultsFetcher fd shape (blobOf r.copied) r.cbChunkSize vs) vs =
          Except.ok out →
        ∀ v ∈ out, v.length = fd := by
  intro runs
  induction runs with
  | nil =>
    intro _ vs out hvs heq
    simp only [List.foldlM_nil, pure, Except.pure] at heq
    cases heq
    exact hvs
  | cons r rest ih =>
    intro hr vs out hvs heq
    rw [List.foldlM_cons] at heq
    cases hmid : resultsFetcher fd shape (blobOf r.copied) r.cbChunkSize vs with
    | error e =>
      rw [hmid] at heq
      simp only [bind, Except.bind] at heq
      cases heq
    | ok mid =>
      rw [hmid] at heq
      simp only [bind, Except.bind] at heq
      have hle : r.cbChunkSize * fd ≤ (blobOf r.copied).length := by
        rw [hblob]
        exact Nat.mul_le_mul_right fd (hr r (List.mem_cons_self r rest))
      have hmlen := resultsFetcher_ok_lengths fd shape (blobOf r.copied)
        r.cbChunkSize hle vs mid hvs hmid
      exact ih (fun r2 hr2 => hr r2 (List.mem_cons_of_mem r hr2)) mid out hmlen heq

/-- On a nonempty frame list, a reshape request whose area differs from the
feature dimension makes `VectorCNN::Compute` fail. -/
theorem vectorCNNCompute_reshape_error {α β : Type} (fd m bs hh ww : Nat) (hbs : 0 < bs)
    (hne : hh * ww ≠ fd) (blobOf : List α → List β) (frames : List α)
    (hfr : frames ≠ []) :
    vectorCNNCompute fd m bs (some (hh, ww)) blobOf frames =
      Except.error "VectorCNN reshape size mismatch" := by
  unfold vectorCNNCompute
  cases hrs : inferBatch m bs ["fc"] frames with
  | nil => exact absurd hrs (inferBatch_ne_nil m bs ["fc"] frames hfr)
  | cons r rest =>
    have hmem : r ∈ inferBatch m bs ["fc"] frames := by
      rw [hrs]
      exact List.mem_cons_self r rest
    have hspec := inferBatchGo_spec m bs hbs ["fc"] frames.length frames (Nat.le_refl _) r hmem
    have hpos : 0 < r.cbChunkSize := by
      rw [hspec.2.2.1]
      exact hspec.1
    rw [List.foldlM_cons,
      resultsFetcher_reshape_error fd hh ww (blobOf r.copied) hne r.cbChunkSize hpos []]
    rfl

/-- C7: every output vector produced by a successful `VectorCNN::Compute`
has length equal to the network's declared output feature dimension
(`out_blob.size[1]`); and a requested reshape to `(h, w)` with `h * w`
different from that feature dimension fails with an error instead of
returning a truncated or padded vector. -/
theorem vectorCNNCompute_output_dims {α β : Type} (fd m bs : Nat) (hbs : 0 < bs)
    (blobOf : List α → List β) (hblob : ∀ chunk, (blobOf chunk).length = bs * fd) :
    (∀ (shape : Option (Nat × Nat)) (frames : List α) (out : List (List β)),
      vectorCNNCompute fd m bs shape blobOf frames = Except.ok out →
      ∀ v ∈ out, v.length = fd) ∧
    (∀ (hh ww : Nat) (frames : List α), hh * ww ≠ fd → frames ≠ [] →
      vectorCNNCompute fd m bs (some (hh, ww)) blobOf frames =
        Except.error "VectorCNN reshape size mismatch") := by
  constructor
  · intro shape frames out heq
    have hruns : ∀ r ∈ inferBatch m bs ["fc"] frames, r.cbChunkSize ≤ bs := by
      intro r hr
      have h := inferBatchGo_spec m bs hbs ["fc"] frames.length frames (Nat.le_refl _) r hr
      rw [h.2.2.1]
      exact h.2.1
    exact computeFold_ok_lengths fd bs shape blobOf hblob _ hruns [] out
      (fun v hv => absurd hv (List.not_mem_nil v)) heq
  · intro hh ww frames hne hfr
    exact vectorCNNCompute_reshape_error fd m bs hh ww hbs hne blobOf frames hfr

/-- Witness for C7 at a concrete input: feature dimension 2, batch size 2,
one chunk of two frames; the first output vector of the plain run has
length 2, and a reshape to `(3, 1)` fails. -/
theorem vectorCNNCompute_output_dims_witness :
    List.length [9, 8] = 2 ∧
    vectorCNNCompute 2 1 2 (some (3, 1)) (fun _ : List Nat => ([9, 8, 7, 6] : List Nat))
        [10, 20] =
      Except.error "VectorCNN reshape size mismatch" := by
  have h := vectorCNNCompute_output_dims 2 1 2 (by decide)
    (fun _ : List Nat => ([9, 8, 7, 6] : List Nat)) (fun _ => rfl)
  exact ⟨h.1 none [10, 20] [[9, 8], [7, 6]] (by rfl) [9, 8] (by decide),
    h.2 3 1 [10, 20] (by decide) (by decide)⟩

/-- Counterexample to C9 as stated: with `-h` absent and `-i` missing, the
thrown `std::logic_error` is caught by the entry point's generic handler,
which logs it — without printing usage — and exits with code 1, not 0. -/
theorem mainMask_missing_arg_counterexample :
    (mainMask { h := false, i := "", m := "model.xml" } (Except.ok ())).exitCode = 1 ∧
    (mainMask { h := false, i := "", m := "model.xml" } (Except.ok ())).usagePrinted
      = false := by
  exact ⟨rfl, rfl⟩

/-- C9 (amended): only the `-h` help path prints usage and exits with code
0; a missing `-i` or `-m` raises a `std::logic_error` that the entry
point's catch block turns into exit code 1 after logging, with no usage
printed. -/
theorem mainMask_flag_handling (flags : CmdFlags) (rest : Except String Unit) :
    (flags.h = true → mainMask flags rest = { exitCode := 0, usagePrinted := true }) ∧
    (flags.h = false → flags.i = "" ∨ flags.m = "" →
      mainMask flags rest = { exitCode := 1, usagePrinted := false }) := by
  constructor
  · intro hh
    simp [mainMask, parseAndCheckCommandLine, hh]
  · intro hh hmiss
    rcases hmiss with hi | hm
    · simp [mainMask, parseAndCheckCommandLine, hh, hi]
    · by_cases hi : flags.i = ""
      · simp [mainMask, parseAndCheckCommandLine, hh, hi]
      · simp [mainMask, parseAndCheckCommandLine, hh, hi, hm]

/-- Witness for C9 (amended) at concrete inputs: the help flag, and a
missing `-m`. -/
theorem mainMask_flag_handling_witness :
    mainMask { h := true, i := "", m := "" } (Except.ok ())
      = { exitCode := 0, usagePrinted := true } ∧
    mainMask { h := false, i := "in.png", m := "" } (Except.ok ())
      = { exitCode := 1, usagePrinted := false } :=
  ⟨(mainMask_flag_handling { h := true, i := "", m := "" } (Except.ok ())).1 rfl,
   (mainMask_flag_handling { h := false, i := "in.png", m := "" } (Except.ok ())).2
     rfl (Or.inr rfl)⟩

/-- Branch equation: a negative cast batch index breaks out of the loop. -/
theorem decodeBoxes_cons_break (nb pN C H W : Nat) (imgs : Nat → Nat × Nat)
    (r : BoxRow) (rest : List BoxRow) (box : Nat) (cc : List (Nat × Nat))
    (hneg : truncToInt r.batchF < 0) :
    decodeBoxes nb pN C H W imgs (r :: rest) box cc = Except.ok [] := by
  simp [decodeBoxes, hneg]

/-- Branch equation: an in-range-negative check failing and batch index at
or above the net batch size throws. -/
theorem decodeBoxes_cons_error (nb pN C H W : Nat) (imgs : Nat → Nat × Nat)
    (r : BoxRow) (rest : List BoxRow) (box : Nat) (cc : List (Nat × Nat))
    (h0 : ¬ truncToInt r.batchF < 0) (hge : (nb : Int) ≤ truncToInt r.batchF) :
    decodeBoxes nb pN C H W imgs (r :: rest) box cc =
      Except.error "Invalid batch ID within detection output box" := by
  simp [decodeBoxes, h0, hge]

/-- Branch equation: an accepted row is composited and the loop continues
with the updated `class_color` map. -/
theorem decodeBoxes_cons_accept (nb pN C H W : Nat) (imgs : Nat → Nat × Nat)
    (r : BoxRow) (rest : List BoxRow) (box : Nat) (cc : List (Nat × Nat))
    (h0 : ¬ truncToInt r.batchF < 0) (hlt : ¬ (nb : Int) ≤ truncToInt r.batchF)
    (hacc : rowAccept imgs r) :
    decodeBoxes nb pN C H W imgs (r :: rest) box cc =
      (decodeBoxes nb pN C H W imgs rest (box + 1)
          (emplaceRank cc (classIdOf r.classF)).2).map
        (fun ovs =>
          { box := box, batch := (truncToInt r.batchF).toNat,
            classId := classIdOf r.classF,
            rank := (emplaceRank cc (classIdOf r.classF)).1,
            colorIndex := (emplaceRank cc (classIdOf r.classF)).1 % pN,
            maskOffset := maskSlabOffset C H W box (classIdOf r.classF) } :: ovs) := by
  simp [decodeBoxes, h0, hlt, hacc]

/-- Branch equation: a rejected row is skipped, leaving the map alone. -/
theorem decodeBoxes_cons_skip (nb pN C H W : Nat) (imgs : Nat → Nat × Nat)
    (r : BoxRow) (rest : List BoxRow) (box : Nat) (cc : List (Nat × Nat))
    (h0 : ¬ truncToInt r.batchF < 0) (hlt : ¬ (nb : Int) ≤ truncToInt r.batchF)
    (hnacc : ¬ rowAccept imgs r) :
    decodeBoxes nb pN C H W imgs (r :: rest) box cc =
      decodeBoxes nb pN C H W imgs rest (box + 1) cc := by
  simp [decodeBoxes, h0, hlt, hnacc]

/-- Appending anything after a negative-batch row does not change the
decoding result: the loop breaks there no matter what follows. -/
theorem decodeBoxes_break_extends (nb pN C H W : Nat) (imgs : Nat → Nat × Nat)
    (r : BoxRow) (hneg : truncToInt r.batchF < 0) :
    ∀ (pre post : List BoxRow) (box : Nat) (cc : List (Nat × Nat)),
      decodeBoxes nb pN C H W imgs (pre ++ r :: post) box cc =
        decodeBoxes nb pN C H W imgs pre box cc := by
  intro pre
  induction pre with
  | nil =>
    intro post box cc
    rw [List.nil_append, decodeBoxes_cons_break nb pN C H W imgs r post box cc hneg]
    rfl
  | cons p pre ih =>
    intro post box cc
    rw [List.cons_append]
    by_cases h0 : truncToInt p.batchF < 0
    · rw [decodeBoxes_cons_break nb pN C H W imgs p _ box cc h0,
        decodeBoxes_cons_break nb pN C H W imgs p pre box cc h0]
    · by_cases hge : (nb : Int) ≤ truncToInt p.batchF
      · rw [decodeBoxes_cons_error nb pN C H W imgs p _ box cc h0 hge,
          decodeBoxes_cons_error nb pN C H W imgs p pre box cc h0 hge]
      · by_cases hacc : rowAccept imgs p
        · rw [decodeBoxes_cons_accept nb pN C H W imgs p _ box cc h0 hge hacc,
            decodeBoxes_cons_accept nb pN C H W imgs p pre box cc h0 hge hacc, ih]
        · rw [decodeBoxes_cons_skip nb pN C H W imgs p _ box cc h0 hge hacc,
            decodeBoxes_cons_skip nb pN C H W imgs p pre box cc h0 hge hacc, ih]

/-- Every overlay a successful decode produces stems from a row index
within the processed row list. -/
theorem decodeBoxes_box_indices (nb pN C H W : Nat) (imgs : Nat → Nat × Nat) :
    ∀ (rows : List BoxRow) (box : Nat) (cc : List (Nat × Nat)) (ovs : List Overlay),
      decodeBoxes nb pN C H W imgs rows box cc = Except.ok ovs →
      ∀ o ∈ ovs, box ≤ o.box ∧ o.box < box + rows.length := by
  intro rows
  induction rows with
  | nil =>
    intro box cc ovs heq o ho
    simp only [decodeBoxes] at heq
    cases heq
    exact absurd ho (List.not_mem_nil o)
  | cons r rest ih =>
    intro box cc ovs heq o ho
    by_cases h0 : truncToInt r.batchF < 0
    · rw [decodeBoxes_cons_break nb pN C H W imgs r rest box cc h0] at heq
      cases heq
      exact absurd ho (List.not_mem_nil o)
    · by_cases hge : (nb : Int) ≤ truncToInt r.batchF
      · rw [decodeBoxes_cons_error nb pN C H W imgs r rest box cc h0 hge] at heq
        cases heq
      · by_cases hacc : rowAccept imgs r
        · rw [decodeBoxes_cons_accept nb pN C H W imgs r rest box cc h0 hge hacc] at heq
          cases htl : decodeBoxes nb pN C H W imgs rest (box + 1)
              (emplaceRank cc (classIdOf r.classF)).2 with
          | error e => rw [htl] at heq; cases heq
          | ok tl =>
            rw [htl] at heq
            simp only [Except.map] at heq
            cases heq
            rcases List.mem_cons.mp ho with h1 | h2
            · subst h1
              simp only [List.length_cons]
              omega
            · have := ih (box + 1) _ tl htl o h2
              simp only [List.length_cons]
              omega
        · rw [decodeBoxes_cons_skip nb pN C H W imgs r rest box cc h0 hge hacc] at heq
          have := ih (box + 1) cc ovs heq o ho
          simp only [List.length_cons]
          omega

/-- C4: in the detection decoder, a row whose cast batch index is negative
terminates the loop: decoding a row list `pre ++ r :: post` with
`batchIndex(r) < 0` equals decoding `pre` alone — the rows after `r` are
ignored whatever they contain (no overlay, no color assignment, no error
from them) — and every overlay of a successful run comes from a row
strictly before `r`. -/
theorem decode_negative_batch_terminates (nb pN C H W : Nat) (imgs : Nat → Nat × Nat)
    (pre post : List BoxRow) (r : BoxRow) (box : Nat) (cc : List (Nat × Nat))
    (hneg : truncToInt r.batchF < 0) :
    decodeBoxes nb pN C H W imgs (pre ++ r :: post) box cc =
      decodeBoxes nb pN C H W imgs pre box cc ∧
    ∀ ovs, decodeBoxes nb pN C H W imgs (pre ++ r :: post) box cc = Except.ok ovs →
      ∀ o ∈ ovs, o.box < box + pre.length := by
  have hext := decodeBoxes_break_extends nb pN C H W imgs r hneg pre post box cc
  refine ⟨hext, ?_⟩
  intro ovs heq o ho
  rw [hext] at heq
  exact (decodeBoxes_box_indices nb pN C H W imgs pre box cc ovs heq o ho).2

/-- Witness for C4 at a concrete input: one accepted row, then the
`batchIndex = -1` sentinel, then a junk row with an out-of-range batch
index that would throw if it were ever looked at. -/
theorem decode_negative_batch_terminates_witness :
    decodeBoxes 1 4 2 3 3 (fun _ => (100, 100))
        ([{ batchF := 0, classF := 1, prob := 1, x1 := 0, y1 := 0, x2 := 1, y2 := 1 }] ++
          { batchF := -1, classF := 0, prob := 0, x1 := 0, y1 := 0, x2 := 0, y2 := 0 } ::
          [{ batchF := 9, classF := 0, prob := 0, x1 := 0, y1 := 0, x2 := 0, y2 := 0 }])
        0 [] =
      decodeBoxes 1 4 2 3 3 (fun _ => (100, 100))
        [{ batchF := 0, classF := 1, prob := 1, x1 := 0, y1 := 0, x2 := 1, y2 := 1 }] 0 [] ∧
    ∀ ovs, decodeBoxes 1 4 2 3 3 (fun _ => (100, 100))
        ([{ batchF := 0, classF := 1, prob := 1, x1 := 0, y1 := 0, x2 := 1, y2 := 1 }] ++
          { batchF := -1, classF := 0, prob := 0, x1 := 0, y1 := 0, x2 := 0, y2 := 0 } ::
          [{ batchF := 9, classF := 0, prob := 0, x1 := 0, y1 := 0, x2 := 0, y2 := 0 }])
        0 [] = Except.ok ovs →
      ∀ o ∈ ovs, o.box < 0 + 1 :=
  decode_negative_batch_terminates 1 4 2 3 3 (fun _ => (100, 100))
    [{ batchF := 0, classF := 1, prob := 1, x1 := 0, y1 := 0, x2 := 1, y2 := 1 }]
    [{ batchF := 9, classF := 0, prob := 0, x1 := 0, y1 := 0, x2 := 0, y2 := 0 }]
    { batchF := -1, classF := 0, prob := 0, x1 := 0, y1 := 0, x2 := 0, y2 := 0 }
    0 [] (by decide)

/-- If every row before `r` has an in-range, non-negative batch index, and
`r`'s batch index is non-negative but at least `netBatchSize`, decoding
throws the logic error. -/
theorem decodeBoxes_invalid_batch_error (nb pN C H W : Nat) (imgs : Nat → Nat × Nat)
    (r : BoxRow) (hr0 : 0 ≤ truncToInt r.batchF)
    (hrge : (nb : Int) ≤ truncToInt r.batchF) :
    ∀ (pre : List BoxRow),
      (∀ p ∈ pre, 0 ≤ truncToInt p.batchF ∧ truncToInt p.batchF < (nb : Int)) →
      ∀ (post : List BoxRow) (box : Nat) (cc : List (Nat × Nat)),
        decodeBoxes nb pN C H W imgs (pre ++ r :: post) box cc =
          Except.error "Invalid batch ID within detection output box" := by
  intro pre
  induction pre with
  | nil =>
    intro _ post box cc
    rw [List.nil_append]
    exact decodeBoxes_cons_error nb pN C H W imgs r post box cc (by omega) hrge
  | cons p pre ih =>
    intro hpre post box cc
    have hp := hpre p (List.mem_cons_self p pre)
    have hrec := ih (fun q hq => hpre q (List.mem_cons_of_mem p hq))
    rw [List.cons_append]
    by_cases hacc : rowAccept imgs p
    · rw [decodeBoxes_cons_accept nb pN C H W imgs p _ box cc (by omega) (by omega) hacc,
        hrec post (box + 1) (emplaceRank cc (classIdOf p.classF)).2]
      rfl
    · rw [decodeBoxes_cons_skip nb pN C H W imgs p _ box cc (by omega) (by omega) hacc,
        hrec post (box + 1) cc]

/-- Every overlay a successful decode composites targets an image whose
batch index is strictly below the configured batch size. -/
theorem decodeBoxes_batch_lt (nb pN C H W : Nat) (imgs : Nat → Nat × Nat) :
    ∀ (rows : List BoxRow) (box : Nat) (cc : List (Nat × Nat)) (ovs : List Overlay),
      decodeBoxes nb pN C H W imgs rows box cc = Except.ok ovs →
      ∀ o ∈ ovs, o.batch < nb := by
  intro rows
  induction rows with
  | nil =>
    intro box cc ovs heq o ho
    simp only [decodeBoxes] at heq
    cases heq
    exact absurd ho (List.not_mem_nil o)
  | cons r rest ih =>
    intro box cc ovs heq o ho
    by_cases h0 : truncToInt r.batchF < 0
    · rw [decodeBoxes_cons_break nb pN C H W imgs r rest box cc h0] at heq
      cases heq
      exact absurd ho (List.not_mem_nil o)
    · by_cases hge : (nb : Int) ≤ truncToInt r.batchF
      · rw [decodeBoxes_cons_error nb pN C H W imgs r rest box cc h0 hge] at heq
        cases heq
      · by_cases hacc : rowAccept imgs r
        · rw [decodeBoxes_cons_accept nb pN C H W imgs r rest box cc h0 hge hacc] at heq
          cases htl : decodeBoxes nb pN C H W imgs rest (box + 1)
              (emplaceRank cc (classIdOf r.classF)).2 with
          | error e => rw [htl] at heq; cases heq
          | ok tl =>
            rw [htl] at heq
            simp only [Except.map] at heq
            cases heq
            rcases List.mem_cons.mp ho with h1 | h2
            · subst h1
              simp only
              omega
            · exact ih (box + 1) _ tl htl o h2
        · rw [decodeBoxes_cons_skip nb pN C H W imgs r rest box cc h0 hge hacc] at heq
          exact ih (box + 1) cc ovs heq o ho

/-- C5: a reachable detection row (all earlier rows carry in-range,
non-negative batch indices) whose batch index is non-negative and at least
the configured batch size makes the decoder fail with the logic error
"Invalid batch ID within detection output box"; the error propagates
through the entry point's catch block, which exits with code 1; and no row
with such a batch index is ever composited — overlays of successful runs
always target an in-range batch. -/
theorem decode_invalid_batch_fatal (nb pN C H W : Nat) (imgs : Nat → Nat × Nat)
    (pre post : List BoxRow) (r : BoxRow)
    (hpre : ∀ p ∈ pre, 0 ≤ truncToInt p.batchF ∧ truncToInt p.batchF < (nb : Int))
    (hr0 : 0 ≤ truncToInt r.batchF) (hrge : (nb : Int) ≤ truncToInt r.batchF)
    (flags : CmdFlags) (hh : flags.h = false) (hi : flags.i ≠ "") (hm : flags.m ≠ "") :
    decodeDetections nb pN C H W imgs (pre ++ r :: post) =
      Except.error "Invalid batch ID within detection output box" ∧
    mainMask flags
        ((decodeDetections nb pN C H W imgs (pre ++ r :: post)).map fun _ => ()) =
      { exitCode := 1, usagePrinted := false } ∧
    ∀ (rows : List BoxRow) (ovs : List Overlay),
      decodeDetections nb pN C H W imgs rows = Except.ok ovs →
      ∀ o ∈ ovs, o.batch < nb := by
  have herr : decodeDetections nb pN C H W imgs (pre ++ r :: post) =
      Except.error "Invalid batch ID within detection output box" :=
    decodeBoxes_invalid_batch_error nb pN C H W imgs r hr0 hrge pre hpre post 0 []
  refine ⟨herr, ?_, ?_⟩
  · rw [herr]
    simp [mainMask, parseAndCheckCommandLine, hh, hi, hm, Except.map]
  · intro rows ovs heq
    exact decodeBoxes_batch_lt nb pN C H W imgs rows 0 [] ovs heq

/-- Witness for C5 at a concrete input: batch size 1, a single row whose
batch index is 1, valid flags. -/
theorem decode_invalid_batch_fatal_witness :
    decodeDetections 1 4 2 3 3 (fun _ => (100, 100))
        ([] ++ { batchF := 1, classF := 1, prob := 1,
                 x1 := 0, y1 := 0, x2 := 1, y2 := 1 } :: []) =
      Except.error "Invalid batch ID within detection output box" ∧
    mainMask { h := false, i := "in.png", m := "model.xml" }
        ((decodeDetections 1 4 2 3 3 (fun _ => (100, 100))
          ([] ++ { batchF := 1, classF := 1, prob := 1,
                   x1 := 0, y1 := 0, x2 := 1, y2 := 1 } :: [])).map fun _ => ()) =
      { exitCode := 1, usagePrinted := false } ∧
    ∀ (rows : List BoxRow) (ovs : List Overlay),
      decodeDetections 1 4 2 3 3 (fun _ => (100, 100)) rows = Except.ok ovs →
      ∀ o ∈ ovs, o.batch < 1 :=
  decode_invalid_batch_fatal 1 4 2 3 3 (fun _ => (100, 100)) [] []
    { batchF := 1, classF := 1, prob := 1, x1 := 0, y1 := 0, x2 := 1, y2 := 1 }
    (fun p hp => absurd hp (List.not_mem_nil p)) (by decide) (by decide)
    { h := false, i := "in.png", m := "model.xml" } rfl (by decide) (by decide)

/-- A successful map lookup returns a stored pair. -/
theorem lookupRank_mem (k v : Nat) :
    ∀ cc : List (Nat × Nat), lookupRank k cc = some v → (k, v) ∈ cc := by
  intro cc
  induction cc with
  | nil => intro h; cases h
  | cons p rest ih =>
    intro h
    obtain ⟨k2, v2⟩ := p
    by_cases hk : k2 = k
    · subst hk
      simp only [lookupRank, if_pos rfl] at h
      cases h
      exact List.mem_cons_self _ _
    · simp only [lookupRank, if_neg hk] at h
      exact List.mem_cons_of_mem _ (ih h)

/-- A failed map lookup means the key is absent. -/
theorem lookupRank_none_iff (k : Nat) :
    ∀ cc : List (Nat × Nat), lookupRank k cc = none ↔ k ∉ cc.map Prod.fst := by
  intro cc
  induction cc with
  | nil => simp [lookupRank]
  | cons p rest ih =>
    obtain ⟨k2, v2⟩ := p
    by_cases hk : k2 = k
    · subst hk
      simp [lookupRank]
    · simp only [lookupRank, if_neg hk, List.map_cons, List.mem_cons, ih]
      constructor
      · intro hn hor
        rcases hor with h1 | h2
        · exact hk h1.symm
        · exact hn h2
      · intro hn
        exact fun h2 => hn (Or.inr h2)

/-- `emplace` returns a pair that is in the updated map. -/
theorem emplaceRank_mem_self (cc : List (Nat × Nat)) (k : Nat) :
    (k, (emplaceRank cc k).1) ∈ (emplaceRank cc k).2 := by
  unfold emplaceRank
  cases hlk : lookupRank k cc with
  | some v => exact lookupRank_mem k v cc hlk
  | none =>
    simp only
    exact List.mem_append_right _ (List.mem_singleton.mpr rfl)

/-- `emplace` never removes existing entries. -/
theorem emplaceRank_mono (cc : List (Nat × Nat)) (k : Nat) (p : Nat × Nat)
    (hp : p ∈ cc) : p ∈ (emplaceRank cc k).2 := by
  unfold emplaceRank
  cases lookupRank k cc with
  | some v => exact hp
  | none => exact List.mem_append_left _ hp

/-- `emplace` preserves the `class_color` invariant. -/
theorem emplaceRank_wf (cc : List (Nat × Nat)) (k : Nat) (hwf : ccWellFormed cc) :
    ccWellFormed (emplaceRank cc k).2 := by
  unfold emplaceRank
  cases hlk : lookupRank k cc with
  | some v => exact hwf
  | none =>
    obtain ⟨hsnd, hfst⟩ := hwf
    constructor
    · simp only [List.map_append, List.map_cons, List.map_nil, List.length_append,
        List.length_cons, List.length_nil, hsnd]
      rw [List.range_succ]
    · simp only [List.map_append, List.map_cons, List.map_nil]
      rw [List.nodup_append]
      refine ⟨hfst, List.nodup_singleton k, ?_⟩
      intro a ha hb
      rw [List.mem_singleton.mp hb] at ha
      exact (lookupRank_none_iff k cc).mp hlk ha

/-- `emplace` extends the key sequence in first-seen order. -/
theorem emplaceRank_keys (cc : List (Nat × Nat)) (k : Nat) :
    (emplaceRank cc k).2.map Prod.fst = insSeen (cc.map Prod.fst) k := by
  unfold emplaceRank insSeen
  cases hlk : lookupRank k cc with
  | some v =>
    have hk : k ∈ cc.map Prod.fst := by
      have := lookupRank_mem k v cc hlk
      exact List.mem_map_of_mem Prod.fst this
    simp [hk]
  | none =>
    have hk : k ∉ cc.map Prod.fst := (lookupRank_none_iff k cc).mp hlk
    simp [hk]

/-- In a well-formed map every stored rank is below the map's size. -/
theorem ccWellFormed_rank_lt (cc : List (Nat × Nat)) (hwf : ccWellFormed cc)
    (k v : Nat) (hm : (k, v) ∈ cc) : v < cc.length := by
  have hv : v ∈ cc.map Prod.snd := List.mem_map_of_mem Prod.snd hm
  rw [hwf.1] at hv
  exact List.mem_range.mp hv

/-- In a well-formed map the key determines the rank. -/
theorem ccWellFormed_key_det (cc : List (Nat × Nat)) (hwf : ccWellFormed cc)
    (k v1 v2 : Nat) (h1 : (k, v1) ∈ cc) (h2 : (k, v2) ∈ cc) : v1 = v2 := by
  have := List.inj_on_of_nodup_map hwf.2 h1 h2 rfl
  exact congrArg Prod.snd this

/-- In a well-formed map the rank determines the key. -/
theorem ccWellFormed_val_inj (cc : List (Nat × Nat)) (hwf : ccWellFormed cc)
    (k1 k2 v : Nat) (h1 : (k1, v) ∈ cc) (h2 : (k2, v) ∈ cc) : k1 = k2 := by
  have hsnd : (cc.map Prod.snd).Nodup := by
    rw [hwf.1]
    exact List.nodup_range _
  have := List.inj_on_of_nodup_map hsnd h1 h2 rfl
  exact congrArg Prod.fst this

/-- Main color-assignment invariant of the decoding loop: a successful run
starting from a well-formed `class_color` map yields a final well-formed
map extending the initial one, whose key sequence is the initial keys
extended in first-seen order by the accepted class ids, and every overlay's
rank is the final map's entry for its class id, with the color index being
that rank modulo the palette size. -/
theorem decodeBoxes_color_spec (nb pN C H W : Nat) (imgs : Nat → Nat × Nat) :
    ∀ (rows : List BoxRow) (box : Nat) (cc : List (Nat × Nat)), ccWellFormed cc →
      ∀ ovs : List Overlay, decodeBoxes nb pN C H W imgs rows box cc = Except.ok ovs →
        ∃ ccF : List (Nat × Nat), ccWellFormed ccF ∧
          (∀ p ∈ cc, p ∈ ccF) ∧
          ccF.map Prod.fst =
            List.foldl insSeen (cc.map Prod.fst) (ovs.map Overlay.classId) ∧
          ∀ o ∈ ovs, (o.classId, o.rank) ∈ ccF ∧ o.colorIndex = o.rank % pN := by
  intro rows
  induction rows with
  | nil =>
    intro box cc hwf ovs heq
    simp only [decodeBoxes] at heq
    cases heq
    exact ⟨cc, hwf, fun p hp => hp, rfl, fun o ho => absurd ho (List.not_mem_nil o)⟩
  | cons r rest ih =>
    intro box cc hwf ovs heq
    by_cases h0 : truncToInt r.batchF < 0
    · rw [decodeBoxes_cons_break nb pN C H W imgs r rest box cc h0] at heq
      cases heq
      exact ⟨cc, hwf, fun p hp => hp, rfl, fun o ho => absurd ho (List.not_mem_nil o)⟩
    · by_cases hge : (nb : Int) ≤ truncToInt r.batchF
      · rw [decodeBoxes_cons_error nb pN C H W imgs r rest box cc h0 hge] at heq
        cases heq
      · by_cases hacc : rowAccept imgs r
        · rw [decodeBoxes_cons_accept nb pN C H W imgs r rest box cc h0 hge hacc] at heq
          cases htl : decodeBoxes nb pN C H W imgs rest (box + 1)
              (emplaceRank cc (classIdOf r.classF)).2 with
          | error e => rw [htl] at heq; cases heq
          | ok tl =>
            rw [htl] at heq
            simp only [Except.map] at heq
            cases heq
            obtain ⟨ccF, hwfF, hsub, hkeys, hall⟩ :=
              ih (box + 1) (emplaceRank cc (classIdOf r.classF)).2
                (emplaceRank_wf cc (classIdOf r.classF) hwf) tl htl
            refine ⟨ccF, hwfF, ?_, ?_, ?_⟩
            · intro p hp
              exact hsub p (emplaceRank_mono cc (classIdOf r.classF) p hp)
            · simp only [List.map_cons, List.foldl_cons]
              rw [hkeys, emplaceRank_keys]
            · intro o ho
              rcases List.mem_cons.mp ho with h1 | h2
              · subst h1
                refine ⟨hsub _ (emplaceRank_mem_self cc (classIdOf r.classF)), rfl⟩
              · exact hall o h2
        · rw [decodeBoxes_cons_skip nb pN C H W imgs r rest box cc h0 hge hacc] at heq
          exact ih (box + 1) cc hwf ovs heq

/-- C6: in a successful decoding run, the `class_color` map pairs each
accepted class id with a palette rank assigned by first-seen insertion
order (the key sequence is the fold of first-seen insertion over the
overlays' class ids, and the ranks are `0, 1, 2, ...` in that order — not
the numeric class ids); every overlay's color index is its class's rank
modulo the palette size.  Hence two accepted boxes with the same class id
get the same overlay color; two accepted boxes with different class ids
get different ranks, and different colors whenever the palette has not
wrapped (number of distinct classes ≤ palette size); and an overlay of the
`(N+1)`-th distinct class (rank `N`, the palette size) reuses color 0. -/
theorem decode_color_assignment (nb pN C H W : Nat) (imgs : Nat → Nat × Nat)
    (rows : List BoxRow) (ovs : List Overlay)
    (heq : decodeDetections nb pN C H W imgs rows = Except.ok ovs) :
    ∃ ccF : List (Nat × Nat),
      ccF.map Prod.fst = List.foldl insSeen [] (ovs.map Overlay.classId) ∧
      ccF.map Prod.snd = List.range ccF.length ∧
      (∀ o ∈ ovs, (o.classId, o.rank) ∈ ccF ∧ o.rank < ccF.length ∧
        o.colorIndex = o.rank % pN) ∧
      (∀ o1 ∈ ovs, ∀ o2 ∈ ovs,
        (o1.classId = o2.classId → o1.colorIndex = o2.colorIndex) ∧
        (o1.classId ≠ o2.classId → o1.rank ≠ o2.rank ∧
          (ccF.length ≤ pN → o1.colorIndex ≠ o2.colorIndex))) ∧
      (∀ o ∈ ovs, o.rank = pN → o.colorIndex = 0) := by
  have hwf0 : ccWellFormed [] := ⟨rfl, List.nodup_nil⟩
  obtain ⟨ccF, hwfF, -, hkeys, hall⟩ :=
    decodeBoxes_color_spec nb pN C H W imgs rows 0 [] hwf0 ovs heq
  refine ⟨ccF, by simpa using hkeys, hwfF.1, ?_, ?_, ?_⟩
  · intro o ho
    obtain ⟨hmem, hcol⟩ := hall o ho
    exact ⟨hmem, ccWellFormed_rank_lt ccF hwfF _ _ hmem, hcol⟩
  · intro o1 h1 o2 h2
    obtain ⟨hm1, hc1⟩ := hall o1 h1
    obtain ⟨hm2, hc2⟩ := hall o2 h2
    constructor
    · intro hcls
      rw [hcls] at hm1
      have hrk := ccWellFormed_key_det ccF hwfF _ _ _ hm1 hm2
      rw [hc1, hc2, hrk]
    · intro hcls
      have hrk : o1.rank ≠ o2.rank := by
        intro hr
        rw [hr] at hm1
        exact hcls (ccWellFormed_val_inj ccF hwfF _ _ _ hm1 hm2)
      refine ⟨hrk, ?_⟩
      intro hlen hcol
      rw [hc1, hc2] at hcol
      have hl1 := ccWellFormed_rank_lt ccF hwfF _ _ hm1
      have hl2 := ccWellFormed_rank_lt ccF hwfF _ _ hm2
      rw [Nat.mod_eq_of_lt (by omega), Nat.mod_eq_of_lt (by omega)] at hcol
      exact hrk hcol
  · intro o ho hrank
    obtain ⟨-, hcol⟩ := hall o ho
    rw [hcol, hrank, Nat.mod_self]

/-- Evaluation fact: decoded class id of the class-1 test row. -/
theorem classIdOf_row1 :
    classIdOf ({ batchF := 0, classF := 1, prob := 1, x1 := 0, y1 := 0,
                 x2 := 1, y2 := 1 } : BoxRow).classF = 1 := by
  norm_num [classIdOf, truncToInt]
  decide

/-- Evaluation fact: decoded class id of the class-2 test row. -/
theorem classIdOf_row2 :
    classIdOf ({ batchF := 0, classF := 2, prob := 1, x1 := 0, y1 := 0,
                 x2 := 1, y2 := 1 } : BoxRow).classF = 2 := by
  norm_num [classIdOf, truncToInt]
  decide

/-- Evaluation fact: the class-1 test row passes the acceptance test. -/
theorem rowAccept_row1 :
    rowAccept (fun _ => (100, 100))
      { batchF := 0, classF := 1, prob := 1, x1 := 0, y1 := 0, x2 := 1, y2 := 1 } := by
  norm_num [rowAccept, rowBoxWidth, rowBoxHeight, clampCoord, truncToInt]

/-- Evaluation fact: the class-2 test row passes the acceptance test. -/
theorem rowAccept_row2 :
    rowAccept (fun _ => (100, 100))
      { batchF := 0, classF := 2, prob := 1, x1 := 0, y1 := 0, x2 := 1, y2 := 1 } := by
  norm_num [rowAccept, rowBoxWidth, rowBoxHeight, clampCoord, truncToInt]

/-- Concrete three-row decode run (classes 1, 2, 1 — all accepted): the
duplicated class reuses rank 0, the second class gets rank 1. -/
theorem decode_test_run_eval :
    decodeDetections 1 2 2 3 3 (fun _ => (100, 100))
        [{ batchF := 0, classF := 1, prob := 1, x1 := 0, y1 := 0, x2 := 1, y2 := 1 },
         { batchF := 0, classF := 2, prob := 1, x1 := 0, y1 := 0, x2 := 1, y2 := 1 },
         { batchF := 0, classF := 1, prob := 1, x1 := 0, y1 := 0, x2 := 1, y2 := 1 }] =
      Except.ok
        [{ box := 0, batch := 0, classId := 1, rank := 0, colorIndex := 0, maskOffset := 0 },
         { box := 1, batch := 0, classId := 2, rank := 1, colorIndex := 1, maskOffset := 27 },
         { box := 2, batch := 0, classId := 1, rank := 0, colorIndex := 0, maskOffset := 36 }] := by
  have hC : decodeBoxes 1 2 2 3 3 (fun _ => (100, 100))
      [{ batchF := 0, classF := 1, prob := 1, x1 := 0, y1 := 0, x2 := 1, y2 := 1 }] 2
      (emplaceRank (emplaceRank [] 1).2 2).2 =
      Except.ok
        [{ box := 2, batch := 0, classId := 1, rank := 0, colorIndex := 0,
           maskOffset := 36 }] := by
    rw [decodeBoxes_cons_accept 1 2 2 3 3 (fun _ => (100, 100))
        { batchF := 0, classF := 1, prob := 1, x1 := 0, y1 := 0, x2 := 1, y2 := 1 }
        [] 2 (emplaceRank (emplaceRank [] 1).2 2).2
        (by decide) (by decide) rowAccept_row1, classIdOf_row1]
    rfl
  have hB : decodeBoxes 1 2 2 3 3 (fun _ => (100, 100))
      [{ batchF := 0, classF := 2, prob := 1, x1 := 0, y1 := 0, x2 := 1, y2 := 1 },
       { batchF := 0, classF := 1, prob := 1, x1 := 0, y1 := 0, x2 := 1, y2 := 1 }] 1
      (emplaceRank [] 1).2 =
      Except.ok
        [{ box := 1, batch := 0, classId := 2, rank := 1, colorIndex := 1,
           maskOffset := 27 },
         { box := 2, batch := 0, classId := 1, rank := 0, colorIndex := 0,
           maskOffset := 36 }] := by
    rw [decodeBoxes_cons_accept 1 2 2 3 3 (fun _ => (100, 100))
        { batchF := 0, classF := 2, prob := 1, x1 := 0, y1 := 0, x2 := 1, y2 := 1 }
        [{ batchF := 0, classF := 1, prob := 1, x1 := 0, y1 := 0, x2 := 1, y2 := 1 }]
        1 (emplaceRank [] 1).2
        (by decide) (by decide) rowAccept_row2, classIdOf_row2, hC]
    rfl
  unfold decodeDetections
  rw [decodeBoxes_cons_accept 1 2 2 3 3 (fun _ => (100, 100))
      { batchF := 0, classF := 1, prob := 1, x1 := 0, y1 := 0, x2 := 1, y2 := 1 }
      [{ batchF := 0, classF := 2, prob := 1, x1 := 0, y1 := 0, x2 := 1, y2 := 1 },
       { batchF := 0, classF := 1, prob := 1, x1 := 0, y1 := 0, x2 := 1, y2 := 1 }]
      0 [] (by decide) (by decide) rowAccept_row1, classIdOf_row1, hB]
  rfl

/-- Witness for C6 at the concrete three-row run: classes 1, 2, 1 with
palette size 2. -/
theorem decode_color_assignment_witness :
    ∃ ccF : List (Nat × Nat),
      ccF.map Prod.fst = List.foldl insSeen []
        (([{ box := 0, batch := 0, classId := 1, rank := 0, colorIndex := 0,
             maskOffset := 0 },
           { box := 1, batch := 0, classId := 2, rank := 1, colorIndex := 1,
             maskOffset := 27 },
           { box := 2, batch := 0, classId := 1, rank := 0, colorIndex := 0,
             maskOffset := 36 }] : List Overlay).map Overlay.classId) ∧
      ccF.map Prod.snd = List.range ccF.length ∧
      (∀ o ∈ ([{ box := 0, batch := 0, classId := 1, rank := 0, colorIndex := 0,
                 maskOffset := 0 },
               { box := 1, batch := 0, classId := 2, rank := 1, colorIndex := 1,
                 maskOffset := 27 },
               { box := 2, batch := 0, classId := 1, rank := 0, colorIndex := 0,
                 maskOffset := 36 }] : List Overlay),
        (o.classId, o.rank) ∈ ccF ∧ o.rank < ccF.length ∧
        o.colorIndex = o.rank % 2) ∧
      (∀ o1 ∈ ([{ box := 0, batch := 0, classId := 1, rank := 0, colorIndex := 0,
                  maskOffset := 0 },
                { box := 1, batch := 0, classId := 2, rank := 1, colorIndex := 1,
                  maskOffset := 27 },
                { box := 2, batch := 0, classId := 1, rank := 0, colorIndex := 0,
                  maskOffset := 36 }] : List Overlay),
        ∀ o2 ∈ ([{ box := 0, batch := 0, classId := 1, rank := 0, colorIndex := 0,
                   maskOffset := 0 },
                 { box := 1, batch := 0, classId := 2, rank := 1, colorIndex := 1,
                   maskOffset := 27 },
                 { box := 2, batch := 0, classId := 1, rank := 0, colorIndex := 0,
                   maskOffset := 36 }] : List Overlay),
        (o1.classId = o2.classId → o1.colorIndex = o2.colorIndex) ∧
        (o1.classId ≠ o2.classId → o1.rank ≠ o2.rank ∧
          (ccF.length ≤ 2 → o1.colorIndex ≠ o2.colorIndex))) ∧
      (∀ o ∈ ([{ box := 0, batch := 0, classId := 1, rank := 0, colorIndex := 0,
                 maskOffset := 0 },
               { box := 1, batch := 0, classId := 2, rank := 1, colorIndex := 1,
                 maskOffset := 27 },
               { box := 2, batch := 0, classId := 1, rank := 0, colorIndex := 0,
                 maskOffset := 36 }] : List Overlay),
        o.rank = 2 → o.colorIndex = 0) :=
  decode_color_assignment 1 2 2 3 3 (fun _ => (100, 100))
    [{ batchF := 0, classF := 1, prob := 1, x1 := 0, y1 := 0, x2 := 1, y2 := 1 },
     { batchF := 0, classF := 2, prob := 1, x1 := 0, y1 := 0, x2 := 1, y2 := 1 },
     { batchF := 0, classF := 1, prob := 1, x1 := 0, y1 := 0, x2 := 1, y2 := 1 }]
    [{ box := 0, batch := 0, classId := 1, rank := 0, colorIndex := 0, maskOffset := 0 },
     { box := 1, batch := 0, classId := 2, rank := 1, colorIndex := 1, maskOffset := 27 },
     { box := 2, batch := 0, classId := 1, rank := 0, colorIndex := 0, maskOffset := 36 }]
    decode_test_run_eval

/-- `size_t` subtraction `c - 1` is exact for positive in-range `c`. -/
theorem subSizeT_pos_class (c : Nat) (h1 : 1 ≤ c) (hc : c - 1 < SIZE_T_MOD) :
    subSizeT c 1 = c - 1 := by
  unfold subSizeT SIZE_T_MOD at *
  omega

/-- With class id 0, the unsigned `class_id - 1` wraps: the slab offset at
box 0 evaluates to `2^64 - H*W`. -/
theorem maskSlabOffset_zero_class (C H W : Nat) (h1 : 1 ≤ H * W)
    (h2 : H * W ≤ SIZE_T_MOD) :
    maskSlabOffset C H W 0 0 = SIZE_T_MOD - H * W := by
  unfold maskSlabOffset subSizeT SIZE_T_MOD at *
  simp only [Nat.mul_zero, Nat.zero_add]
  have hlit : (2 ^ 64 - 1 % 2 ^ 64) % 2 ^ 64 = 2 ^ 64 - 1 := by norm_num
  rw [hlit]
  generalize hx : H * W = x
  rw [hx] at h1 h2
  omega

/-- C10: for a row accepted by the decoder, if the decoded class id `c`
satisfies `1 ≤ c ≤ C` (the channel count of the `(BOXES, C, H, W)` mask
tensor) and the row index is below `BOXES`, the slab read of `H * W`
floats at `maskSlabOffset` stays within the `BOXES * C * H * W` mask
tensor; and the unsigned offset arithmetic needs that precondition — with
class id 0 the `size_t` expression `class_id - 1` underflows, so the
offset lands at `2^64 - H*W`, beyond the end of any realistically sized
tensor. -/
theorem maskSlabOffset_bounds (BOXES C H W box c : Nat) :
    (box < BOXES → 1 ≤ c → c ≤ C → BOXES * C * (H * W) < SIZE_T_MOD →
      maskSlabOffset C H W box c + H * W ≤ BOXES * C * (H * W)) ∧
    (1 ≤ H * W → BOXES * C * (H * W) + H * W ≤ SIZE_T_MOD →
      BOXES * C * (H * W) ≤ maskSlabOffset C H W 0 0) := by
  constructor
  · intro hbox hc1 hcC htot
    by_cases hhw : H * W = 0
    · have hW0 : W * H * C = 0 := by
        rcases Nat.mul_eq_zero.mp hhw with h | h
        · rw [h]
          ring
        · rw [h]
          ring
      have hoff : maskSlabOffset C H W box c = 0 := by
        unfold maskSlabOffset
        rw [hW0, hhw]
        simp
      rw [hoff, hhw]
      have : BOXES * C * (H * W) = 0 := by
        rw [hhw]
        ring
      omega
    · have hhw1 : 1 ≤ H * W := Nat.pos_of_ne_zero hhw
      have hBOX1 : 1 ≤ BOXES := by omega
      have hCbound : C ≤ BOXES * C * (H * W) := by
        calc C ≤ C * (H * W) := Nat.le_mul_of_pos_right C hhw1
          _ ≤ BOXES * (C * (H * W)) := Nat.le_mul_of_pos_left _ hBOX1
          _ = BOXES * C * (H * W) := by ring
      have hsub : subSizeT c 1 = c - 1 := by
        apply subSizeT_pos_class c hc1
        unfold SIZE_T_MOD at htot ⊢
        omega
      have hmulc : H * W * (c - 1) + H * W = H * W * c := by
        obtain ⟨d, rfl⟩ : ∃ d, c = d + 1 := ⟨c - 1, by omega⟩
        simp only [Nat.add_sub_cancel]
        ring
      have hraw : W * H * C * box + H * W * (c - 1) + H * W ≤ BOXES * C * (H * W) := by
        have h3 : H * W * c ≤ H * W * C := Nat.mul_le_mul_left _ hcC
        have h4 : W * H * C * box + H * W * c ≤ W * H * C * (box + 1) := by
          have : W * H * C * (box + 1) = W * H * C * box + H * W * C := by ring
          omega
        have h5 : W * H * C * (box + 1) ≤ W * H * C * BOXES :=
          Nat.mul_le_mul_left _ (by omega)
        have h6 : W * H * C * BOXES = BOXES * C * (H * W) := by ring
        omega
      have hofflt : W * H * C * box + H * W * (c - 1) < SIZE_T_MOD := by omega
      unfold maskSlabOffset
      rw [hsub, Nat.mod_eq_of_lt hofflt]
      omega
  · intro hhw1 htot
    rw [maskSlabOffset_zero_class C H W hhw1 (by omega)]
    omega

/-- Witness for C10 at a concrete shape: a `(2, 3, 4, 5)` mask tensor,
box 1, class 3 (in bounds), and the class-0 underflow at box 0. -/
theorem maskSlabOffset_bounds_witness :
    maskSlabOffset 3 4 5 1 3 + 4 * 5 ≤ 2 * 3 * (4 * 5) ∧
    2 * 3 * (4 * 5) ≤ maskSlabOffset 3 4 5 0 0 :=
  ⟨(maskSlabOffset_bounds 2 3 4 5 1 3).1 (by decide) (by decide) (by decide) (by decide),
   (maskSlabOffset_bounds 2 3 4 5 1 3).2 (by decide) (by decide)⟩
